import Mathlib

/-!
Shallow embedding of the core of the HighPerformance-AsyncLogSystem repository
(headers under src/include: Logger.h, Logger_impl.h, LogMessage.h, LogQue.h,
LogConfig.h, Sink.h), together with theorems settling the frozen claims about
the natural-language specification.

Conventions: machine sizes (size_t) are modelled as Nat; pointers that are only
tested for null / compared are modelled as Option Nat holding an identifier;
the filesystem is modelled as the list of existing paths; loops whose
termination depends on wall-clock time are modelled with explicit fuel.
-/

namespace AsyncLog

/-! Constants from LogConfig.h. -/

/-- LogConfig::kPerLogMaxSize (single log record maximum size, bytes). -/
def kPerLogMaxSize : Nat := 4096

/-- LogConfig::kDefaultLogPath. -/
def kDefaultLogPath : String := "logfile.log"

/-- LogConfig::kDefaultBackpressureSpinCount (declared in LogConfig.h). -/
def kDefaultBackpressureSpinCount : Nat := 100

/-- LogConfig::kDefaultBackpressureSleepUs (declared in LogConfig.h). -/
def kDefaultBackpressureSleepUs : Nat := 100

/-- LogConfig::kDefaultMaxRotateFiles. -/
def kDefaultMaxRotateFiles : Nat := 7

/-- LogConfig::kDefaultRotateSizeMB. -/
def kDefaultRotateSizeMB : Nat := 1024

/-- Log levels from LogConfig.h / LogQue.h (FLUSH is the barrier level). -/
inductive LogLevel where
  | DEBUG
  | INFO
  | WARN
  | ERROR
  | FATAL
  | FLUSH
deriving DecidableEq

/-- Numeric values of the LogLevel enumerators in the source. -/
def LogLevel.toCppValue : LogLevel → Nat
  | .DEBUG => 0
  | .INFO => 1
  | .WARN => 2
  | .ERROR => 3
  | .FATAL => 4
  | .FLUSH => 99

/-- Queue full policy from LogConfig.h. -/
inductive QueueFullPolicy where
  | BLOCK
  | DROP
deriving DecidableEq

/-- File rotation policy from LogConfig.h. -/
inductive RotatePolicy where
  | NONE
  | DAILY
  | SIZE
deriving DecidableEq

namespace LogBuffer

/-- LogBuffer::SIZE from LogMessage.h (capacity of the fixed char array). -/
def SIZE : Nat := kPerLogMaxSize

end LogBuffer

/-! Model of the buffer-filling part of LogSubmit (Logger.h lines 156-162).

    auto result = std::format_to_n(buf->data, LogBuffer::SIZE - 1, fmt, args...);
    buf->length = result.size;
    buf->data[buf->length] = '\x30';  (actually the nul character)

`std::format_to_n(out, n, ...)` writes at most n characters and returns in
`result.size` the UNTRUNCATED number of characters the full formatted output
would occupy.  The model is parametrised by that untruncated size. -/

/-- Effect of one LogSubmit call on the acquired LogBuffer: how many payload
bytes format_to_n actually writes, the value stored into buf->length, and the
index at which the terminating nul byte is stored. -/
structure SubmitBufferEffect where
  payloadBytesWritten : Nat
  length : Nat
  nulIndex : Nat
deriving DecidableEq

/-- Model of Logger.h LogSubmit formatting, as a function of the untruncated
formatted size of (fmt, args): format_to_n truncates the written bytes to
SIZE - 1, but result.size is the untruncated size, and that is what the code
stores into buf->length and uses as the index of the terminating nul. -/
def logSubmitBufferEffect (untruncatedSize : Nat) : SubmitBufferEffect :=
  { payloadBytesWritten := min untruncatedSize (LogBuffer.SIZE - 1)
    length := untruncatedSize
    nulIndex := untruncatedSize }

/-! Model of LogQueue::Push (LogQue.h lines 186-192).

    bool Push(LogMessage&& msg, bool force = false) {
      if (cfg_.capacity > 0 && que_.size_approx() >= capacity_ && !force)
        return HandleBackPressure(std::move(msg));
      return que_.enqueue(std::move(msg));
    }

`que_.enqueue` (moodycamel) is modelled as succeeding; its only failure mode is
allocator exhaustion, which the shallow embedding does not represent. -/

namespace LogQueue

/-- Result of the direct enqueue path of Push. -/
def enqueueResult : Bool := true

/-- LogQueue::Push modelled on (capacity, observed size_approx, force); the
result of HandleBackPressure is passed in as `backpressureResult` since it
depends on the policy and on time. -/
def Push (capacity sizeApprox : Nat) (force : Bool)
    (backpressureResult : Bool) : Bool :=
  if 0 < capacity ∧ capacity ≤ sizeApprox ∧ force = false then
    backpressureResult
  else
    enqueueResult

/-- True exactly when Push takes the backpressure branch. -/
def pushInvokesBackpressure (capacity sizeApprox : Nat) (force : Bool) : Bool :=
  decide (0 < capacity) && decide (capacity ≤ sizeApprox) && !force

end LogQueue

/-! Model of AsyncLogger::AddDropCount and the drop accounting of LogSubmit
(Logger.h lines 171-173, Logger_impl.h lines 51-52):

    if (!logger->Commit(std::move(msg))) logger->AddDropCount(1);
-/

/-- AsyncLogger::AddDropCount (drop_cnt_.fetch_add(cnt)). -/
def AddDropCount (dropCount cnt : Nat) : Nat := dropCount + cnt

/-- Drop-counter effect of one LogSubmit call, given whether Commit (the queue
push) succeeded. -/
def logSubmitDropStep (dropCount : Nat) (commitOk : Bool) : Nat :=
  if commitOk then dropCount else AddDropCount dropCount 1

/-- Drop counter after a sequence of submissions with the given commit
results. -/
def runSubmits (dropCount : Nat) (commitResults : List Bool) : Nat :=
  commitResults.foldl logSubmitDropStep dropCount

/-! Model of the log_path handling of LogConfig::LoadFromFile (LogConfig.h
lines 253-257) and of Logger::InitFromConfig (Logger.h lines 50-55).

    if (auto value = helper["sink"]["file"]["log_path"].value<std::string>()) {
      if (!value->empty()) { log_path_ = *value; }
    }

    auto file_path = owned_config_.GetLogPath();
    if (!file_path.empty()) { ... AddSink(std::make_shared<FileSink>(...)); }
-/

/-- LoadFromFile's update of log_path_: `loaded` is the optional string value
parsed from the config file, `current` the field's previous value (default
kDefaultLogPath). An empty parsed value leaves the field unchanged. -/
def loadLogPath (loaded : Option String) (current : String) : String :=
  match loaded with
  | some v => if v.isEmpty then current else v
  | none => current

/-- Whether Logger::InitFromConfig attaches a FileSink, as a function of the
configured log path after loading. -/
def initFromConfigAttachesFileSink (logPath : String) : Bool :=
  !logPath.isEmpty

/-! Model of LogMessage (LogMessage.h lines 68-164). Pointers are modelled as
Option Nat identifiers: buffer_ptr identifies a LogBuffer, buffer_pool a
BufferPool, sync_promise a std promise object. -/

/-- The LogMessage value type from LogMessage.h. -/
structure LogMessage where
  time : Int
  level : LogLevel
  file_name : String
  file_line : Nat
  hash_tid : Nat
  buffer_ptr : Option Nat
  sync_promise : Option Nat
  buffer_pool : Option Nat
deriving DecidableEq

namespace LogMessage

/-- The FLUSH-only constructor LogMessage(std promise pointer) from
LogMessage.h lines 104-109: level is FLUSH, sync_promise is the given waiter,
buffer_ptr and buffer_pool stay null. The metadata fields the constructor
leaves untouched are modelled as zero values. -/
def flushMessage (prom : Nat) : LogMessage :=
  { time := 0
    level := LogLevel.FLUSH
    file_name := ""
    file_line := 0
    hash_tid := 0
    buffer_ptr := none
    sync_promise := some prom
    buffer_pool := none }

/-- Fields of a moved-from LogMessage: buffer_ptr, buffer_pool and
sync_promise are set back to null. -/
def clearOwnership (m : LogMessage) : LogMessage :=
  { m with buffer_ptr := none, buffer_pool := none, sync_promise := none }

/-- Move constructor (LogMessage.h lines 116-126): the new message copies all
fields of `other`; `other` keeps its metadata but loses buffer_ptr,
buffer_pool and sync_promise. Returns (constructed message, moved-from state
of the source). -/
def moveConstruct (other : LogMessage) : LogMessage × LogMessage :=
  (other, clearOwnership other)

/-- The buffer the move-assignment operator frees in the target before
overwriting it (LogMessage.h lines 130-132): the old buffer_ptr, but only when
both buffer_ptr and buffer_pool are non-null. -/
def moveAssignFreed (dst : LogMessage) : Option Nat :=
  if dst.buffer_ptr.isSome ∧ dst.buffer_pool.isSome then dst.buffer_ptr
  else none

/-- Move assignment dst = move(src) for dst different from src (LogMessage.h
lines 128-148): frees dst's old buffer when owned, copies every field of src
into dst, nulls buffer_ptr, buffer_pool and sync_promise in src. Returns
(new dst, moved-from src, buffer freed from dst). -/
def moveAssign (dst src : LogMessage) : LogMessage × LogMessage × Option Nat :=
  (src, clearOwnership src, moveAssignFreed dst)

/-- The buffer the destructor returns to the pool (LogMessage.h lines
151-155): buffer_ptr, but only when both buffer_ptr and buffer_pool are
non-null. -/
def destructorFreed (m : LogMessage) : Option Nat :=
  if m.buffer_ptr.isSome ∧ m.buffer_pool.isSome then m.buffer_ptr
  else none

end LogMessage

/-! Ownership state machine for sequences of moves over live LogMessage
objects, used to settle the buffer is freed at most once claim. The state
holds the list of live messages and the list of buffers returned to the pool
so far (in order). -/

/-- One move operation on the set of live messages, by index: construct a new
message by moving from index src, or move-assign message src into message
dst. -/
inductive MoveOp where
  | construct (src : Nat)
  | assign (dst : Nat) (src : Nat)

/-- Live messages plus the buffers freed (returned to the pool) so far. -/
structure OwnershipState where
  msgs : List LogMessage
  freed : List Nat

/-- Append an optional freed buffer to the freed list. -/
def freeOpt (freed : List Nat) : Option Nat → List Nat
  | some b => freed ++ [b]
  | none => freed

/-- Step of the ownership state machine. Out-of-range indices and
self-assignment (guarded by `this != &other` in the source) leave the state
unchanged; move construction appends the new message and replaces the source
by its moved-from state; move assignment frees the target's old buffer,
installs the source's fields in the target and nulls the source. -/
def stepMove (st : OwnershipState) : MoveOp → OwnershipState
  | .construct i =>
    if h : i < st.msgs.length then
      let m := st.msgs.get ⟨i, h⟩
      let r := LogMessage.moveConstruct m
      { msgs := (st.msgs.set i r.2) ++ [r.1], freed := st.freed }
    else st
  | .assign j i =>
    if j = i then st
    else if h : j < st.msgs.length ∧ i < st.msgs.length then
      let dst := st.msgs.get ⟨j, h.1⟩
      let src := st.msgs.get ⟨i, h.2⟩
      let r := LogMessage.moveAssign dst src
      { msgs := (st.msgs.set j r.1).set i r.2.1
        freed := freeOpt st.freed r.2.2 }
    else st

/-- Run a sequence of move operations. -/
def runMoves (st : OwnershipState) (ops : List MoveOp) : OwnershipState :=
  ops.foldl stepMove st

/-- Destroy every live message in order, collecting the buffers the
destructors return to the pool after those already freed. -/
def destroyAll (st : OwnershipState) : List Nat :=
  st.msgs.foldl (fun acc m => freeOpt acc (LogMessage.destructorFreed m))
    st.freed

/-! Model of the per-message dispatch of AsyncLogger::WorkerLoop
(Logger_impl.h lines 89-107) as an event trace. Sinks are identified by Nat;
a logged record is identified by its position in the processed message
list. -/

/-- Observable worker actions: flushing a sink, handing a record to a sink,
completing a flush barrier's waiter (promise set_value). -/
inductive WorkerEvent where
  | flushSink (sink : Nat)
  | logSink (sink : Nat) (msgIdx : Nat)
  | completeWaiter (prom : Nat)
deriving DecidableEq

/-- Events the worker emits for one dequeued message (Logger_impl.h lines
92-106): a FLUSH message first flushes every sink in order, then completes its
waiter if present; any other message is handed to every sink in order. -/
def processMessage (sinks : List Nat) (idx : Nat) (m : LogMessage) :
    List WorkerEvent :=
  if m.level = LogLevel.FLUSH then
    sinks.map WorkerEvent.flushSink ++
      (match m.sync_promise with
       | some p => [WorkerEvent.completeWaiter p]
       | none => [])
  else
    sinks.map (fun s => WorkerEvent.logSink s idx)

/-- Trace of the worker processing a message list, indexing messages from
`start`. -/
def workerTraceFrom (sinks : List Nat) : Nat → List LogMessage →
    List WorkerEvent
  | _, [] => []
  | i, m :: rest => processMessage sinks i m ++ workerTraceFrom sinks (i + 1) rest

/-- Trace of the worker processing a message list in dequeue order. -/
def workerTrace (sinks : List Nat) (msgs : List LogMessage) :
    List WorkerEvent :=
  workerTraceFrom sinks 0 msgs

/-! Model of LogQueue::HandleBackPressure (LogQue.h lines 201-228).

    bool HandleBackPressure(LogMessage&& msg) {
      if (cfg_.full_policy == QueueFullPolicy::DROP) return false;
      size_t sleep_us = 1;
      auto start = steady_clock::now();
      while (true) {
        if (que_.size_approx() < capacity_) return que_.enqueue(std::move(msg));
        if (elapsed_us(start) > cfg_.block_timeout_us) return false;
        sleep_for(microseconds(sleep_us));
        if (sleep_us < 1024) sleep_us *= 2;
      }
    }

The loop reads the queue size and the clock once per iteration; these reads
are modelled by oracles `sizes k` (size_approx at iteration k) and `elapsed k`
(elapsed microseconds at iteration k's timeout check). Real time bounds the
number of iterations; the model makes that explicit with fuel and returns
none when the fuel runs out. The trace records the waits performed. -/

/-- One wait performed while backpressure is active: a pure CPU yield or a
sleep of the given number of microseconds. -/
inductive BPWait where
  | yield
  | sleep (us : Nat)
deriving DecidableEq

namespace LogQueue

/-- The BLOCK-policy retry loop of HandleBackPressure: at iteration k it
retries the size test (enqueueing on success), then checks the timeout, then
sleeps `sleepUs` microseconds and doubles `sleepUs` up to the 1024 cap.
Returns the list of waits performed and the outcome (none if fuel ran out). -/
def HandleBackPressureLoop (capacity timeoutUs : Nat)
    (sizes elapsed : Nat → Nat) : Nat → Nat → Nat → List BPWait × Option Bool
  | 0, _, _ => ([], none)
  | fuel + 1, k, sleepUs =>
    if sizes k < capacity then ([], some enqueueResult)
    else if timeoutUs < elapsed k then ([], some false)
    else
      let next := if sleepUs < 1024 then sleepUs * 2 else sleepUs
      let r := HandleBackPressureLoop capacity timeoutUs sizes elapsed fuel
        (k + 1) next
      (BPWait.sleep sleepUs :: r.1, r.2)

/-- LogQueue::HandleBackPressure: DROP returns false immediately; BLOCK runs
the retry loop starting with a 1 microsecond sleep interval. -/
def HandleBackPressure (policy : QueueFullPolicy) (capacity timeoutUs : Nat)
    (sizes elapsed : Nat → Nat) (fuel : Nat) : List BPWait × Option Bool :=
  match policy with
  | .DROP => ([], some false)
  | .BLOCK => HandleBackPressureLoop capacity timeoutUs sizes elapsed fuel 0 1

end LogQueue

/-- Spec-side definition for the refinement comparison, following the spec's
words for backpressure under Block: a hybrid spin-then-sleep loop that spins
up to `spinCount` iterations yielding the CPU, then sleeps for the fixed short
interval `fixedSleepUs`, repeatedly retrying the size-vs-capacity test and the
enqueue, aborting when the elapsed microseconds exceed the timeout. -/
def specHybridBackPressureLoop (spinCount fixedSleepUs capacity timeoutUs : Nat)
    (sizes elapsed : Nat → Nat) : Nat → Nat → List BPWait × Option Bool
  | 0, _ => ([], none)
  | fuel + 1, k =>
    if sizes k < capacity then ([], some true)
    else if timeoutUs < elapsed k then ([], some false)
    else
      let w := if k < spinCount then BPWait.yield else BPWait.sleep fixedSleepUs
      let r := specHybridBackPressureLoop spinCount fixedSleepUs capacity
        timeoutUs sizes elapsed fuel (k + 1)
      (w :: r.1, r.2)

/-- Spec-side backpressure under Block with the defaults named by the spec's
code reference (kDefaultBackpressureSpinCount, kDefaultBackpressureSleepUs). -/
def specHybridBackPressure (capacity timeoutUs : Nat)
    (sizes elapsed : Nat → Nat) (fuel : Nat) : List BPWait × Option Bool :=
  specHybridBackPressureLoop kDefaultBackpressureSpinCount
    kDefaultBackpressureSleepUs capacity timeoutUs sizes elapsed fuel 0

/-! Model of FileSink (Sink.h lines 34-243). The filesystem is the list of
existing paths. -/

/-- The set of existing paths. -/
abbrev FS := List String

/-- Existing-path test (std::filesystem::exists). -/
def fsExists (fs : FS) (p : String) : Bool := decide (p ∈ fs)

/-- Path removal (std::filesystem::remove). -/
def fsRemove (fs : FS) (p : String) : FS :=
  fs.filter (fun q => decide (q ≠ p))

/-- Path creation (fopen in append mode creates the file). -/
def fsAdd (fs : FS) (p : String) : FS :=
  if p ∈ fs then fs else p :: fs

/-- Mutable state of a FileSink (Sink.h lines 231-243). The function-local
`static int i = 1` of GenerateRotatedName is modelled as the
size_rotate_counter field; it persists across rotations and is never reset. -/
structure FileSinkState where
  hasFile : Bool
  current_file_size : Nat
  base_filepath : String
  rotate_policy : RotatePolicy
  rotate_size_bytes : Nat
  max_rotate_files : Nat
  rotate_files : List String
  size_rotate_counter : Nat
  next_rotation_tp : Int

/-- Settings of a LogConfig that FileSink::ApplyConfig reads. -/
structure LogConfigRotateSlice where
  rotate_policy : RotatePolicy
  rotate_size_mb : Nat
  max_rotate_files : Nat

namespace FileSink

/-- The candidate rotated file name for index i under the Size policy:
base_filepath + underscore + i. -/
def mkSizeRotateName (base : String) (i : Nat) : String :=
  base ++ "_" ++ toString i

/-- The scan of GenerateRotatedName under the Size policy (Sink.h lines
210-214): take the name for the current counter value, and as long as that
path exists, advance the counter and retry. Returns the chosen name and the
counter value after the scan. The fuel bounds the scan; fs.length + 1
attempts always suffice since the fs holds finitely many paths. -/
def genSizeNameScan (base : String) (fs : FS) : Nat → Nat → String × Nat
  | 0, i => (mkSizeRotateName base i, i + 1)
  | fuel + 1, i =>
    if fsExists fs (mkSizeRotateName base i) then
      genSizeNameScan base fs fuel (i + 1)
    else (mkSizeRotateName base i, i + 1)

/-- FileSink::GenerateRotatedName (Sink.h lines 206-218): Daily appends the
current date to the base path; Size scans from the persistent counter for a
non-existing path; otherwise the empty string. Returns the name and the new
counter value. -/
def GenerateRotatedName (s : FileSinkState) (fs : FS) (today : String) :
    String × Nat :=
  match s.rotate_policy with
  | .DAILY => (s.base_filepath ++ today, s.size_rotate_counter)
  | .SIZE => genSizeNameScan s.base_filepath fs (fs.length + 1)
      s.size_rotate_counter
  | .NONE => ("", s.size_rotate_counter)

/-- The while loop of CollectRotateFilesAndCleanOld (Sink.h lines 225-228):
while the retained queue is longer than maxFiles, delete the head path from
disk and pop it. -/
def cleanOld (maxFiles : Nat) : List String → FS → List String × FS
  | [], fs => ([], fs)
  | f :: rest, fs =>
    if rest.length + 1 > maxFiles then cleanOld maxFiles rest (fsRemove fs f)
    else (f :: rest, fs)

/-- FileSink::CollectRotateFilesAndCleanOld (Sink.h lines 221-229): push the
new rotated name at the tail, then delete-and-pop from the head while the
queue exceeds max_rotate_files. Returns the retained queue and the updated
filesystem. -/
def CollectRotateFilesAndCleanOld (files : List String) (rotated : String)
    (maxFiles : Nat) (fs : FS) : List String × FS :=
  cleanOld maxFiles (files ++ [rotated]) fs

/-- FileSink::RotateFile (Sink.h lines 175-201): no-op without an open file;
otherwise sync-and-close, generate the rotated name, rename the base file to
it, collect-and-clean the retained queue, and reopen the base path (reopenOk
tells whether the fopen succeeds). -/
def RotateFile (s : FileSinkState) (fs : FS) (today : String)
    (reopenOk : Bool) : FileSinkState × FS :=
  if s.hasFile = false then (s, fs)
  else
    let gen := GenerateRotatedName s fs today
    let fs1 := fsAdd (fsRemove fs s.base_filepath) gen.1
    let cc := CollectRotateFilesAndCleanOld s.rotate_files gen.1
      s.max_rotate_files fs1
    let fs2 := if reopenOk then fsAdd cc.2 s.base_filepath else cc.2
    ({ s with hasFile := reopenOk
              rotate_files := cc.1
              size_rotate_counter := gen.2 }, fs2)

/-- FileSink::CheckSizeRotate (Sink.h lines 164-172): rotate exactly when
current_file_size has reached rotate_size_bytes, then reset the tracked size
to zero. The Bool reports whether a rotation was performed. -/
def CheckSizeRotate (s : FileSinkState) (fs : FS) (today : String)
    (reopenOk : Bool) : FileSinkState × FS × Bool :=
  if s.current_file_size < s.rotate_size_bytes then (s, fs, false)
  else
    let r := RotateFile s fs today reopenOk
    ({ r.1 with current_file_size := 0 }, r.2, true)

/-- FileSink::CheckDailyRotate (Sink.h lines 154-161): rotate when now has
reached the precomputed next rotation time, then recompute it (the recomputed
value is passed in as newNextTp). -/
def CheckDailyRotate (s : FileSinkState) (fs : FS) (today : String)
    (reopenOk : Bool) (now newNextTp : Int) : FileSinkState × FS × Bool :=
  if now < s.next_rotation_tp then (s, fs, false)
  else
    let r := RotateFile s fs today reopenOk
    ({ r.1 with next_rotation_tp := newNextTp }, r.2, true)

/-- FileSink::CheckRotate (Sink.h lines 122-133): dispatch on the policy. -/
def CheckRotate (s : FileSinkState) (fs : FS) (today : String)
    (reopenOk : Bool) (now newNextTp : Int) : FileSinkState × FS × Bool :=
  match s.rotate_policy with
  | .DAILY => CheckDailyRotate s fs today reopenOk now newNextTp
  | .SIZE => CheckSizeRotate s fs today reopenOk
  | .NONE => (s, fs, false)

/-- FileSink::Log (Sink.h lines 58-70): return without writing when no file is
open; otherwise run the rotation check first, then format and write the record
(formattedSize bytes) and add its size to current_file_size. The Bool reports
whether the rotation check performed a rotation. -/
def Log (s : FileSinkState) (fs : FS) (today : String) (reopenOk : Bool)
    (now newNextTp : Int) (formattedSize : Nat) : FileSinkState × FS × Bool :=
  if s.hasFile = false then (s, fs, false)
  else
    let c := CheckRotate s fs today reopenOk now newNextTp
    ({ c.1 with current_file_size := c.1.current_file_size + formattedSize },
      c.2.1, c.2.2)

/-- FileSink::ApplyConfig, rotation-related part (Sink.h lines 88-97): install
the policy, convert rotate_size_mb to bytes, install max_rotate_files. -/
def ApplyConfig (s : FileSinkState) (cfg : LogConfigRotateSlice) :
    FileSinkState :=
  { s with rotate_policy := cfg.rotate_policy
           rotate_size_bytes := cfg.rotate_size_mb * 1024 * 1024
           max_rotate_files := cfg.max_rotate_files }

end FileSink

/-- Whether a message owns buffer b in the freeing sense: buffer_ptr is b and
buffer_pool is non-null (the destructor and the move-assignment free exactly
in this situation). -/
def ownsBuffer (b : Nat) (m : LogMessage) : Bool :=
  decide (m.buffer_ptr = some b) && m.buffer_pool.isSome

/-- Concrete FileSink state for exercising Size rotation: fresh sink on base
path "log" with Size policy and max_rotate_files = 0, counter at its initial
value 1. -/
def c6State0 : FileSinkState :=
  { hasFile := true
    current_file_size := 0
    base_filepath := "log"
    rotate_policy := RotatePolicy.SIZE
    rotate_size_bytes := 16
    max_rotate_files := 0
    rotate_files := []
    size_rotate_counter := 1
    next_rotation_tp := 0 }

/-- Concrete size_approx schedule: the queue stays at 8192 for the first three
backpressure iterations, then drains. -/
def c8sizes : Nat → Nat := fun k => if k < 3 then 8192 else 0

/-- Concrete elapsed-time schedule: the clock reads 0 at every timeout
check. -/
def c8elapsed : Nat → Nat := fun _ => 0

/-- Concrete LogMessage owning buffer 5 from pool 0. -/
def c10msg : LogMessage :=
  { time := 0
    level := LogLevel.INFO
    file_name := "f"
    file_line := 1
    hash_tid := 2
    buffer_ptr := some 5
    sync_promise := none
    buffer_pool := some 0 }

/-! Helper lemmas. -/

/-- One submission never decreases the drop counter. -/
theorem le_logSubmitDropStep (drop : Nat) (ok : Bool) :
    drop ≤ logSubmitDropStep drop ok := by
  cases ok <;> simp [logSubmitDropStep, AddDropCount]

/-- The drop counter never decreases across a sequence of submissions. -/
theorem le_runSubmits (results : List Bool) (drop : Nat) :
    drop ≤ runSubmits drop results := by
  induction results generalizing drop with
  | nil => exact Nat.le_refl drop
  | cons r rest ih =>
    exact Nat.le_trans (le_logSubmitDropStep drop r) (ih _)

/-- The worker trace of a concatenation splits at the boundary, with indices
continuing after the first part. -/
theorem workerTraceFrom_append (sinks : List Nat) (l1 l2 : List LogMessage)
    (k : Nat) :
    workerTraceFrom sinks k (l1 ++ l2) =
      workerTraceFrom sinks k l1 ++ workerTraceFrom sinks (k + l1.length) l2 := by
  induction l1 generalizing k with
  | nil => simp [workerTraceFrom]
  | cons m rest ih =>
    simp only [List.cons_append, workerTraceFrom, List.append_eq, ih (k + 1),
      List.length_cons, List.append_assoc]
    rw [show k + (rest.length + 1) = k + 1 + rest.length from by omega]

/-- The worker trace decomposes around any message position: everything before
index i, then the events of message i, then the rest. -/
theorem workerTraceFrom_decompose (sinks : List Nat) (msgs : List LogMessage)
    (k i : Nat) (h : i < msgs.length) :
    workerTraceFrom sinks k msgs =
      workerTraceFrom sinks k (msgs.take i) ++
      processMessage sinks (k + i) (msgs.get ⟨i, h⟩) ++
      workerTraceFrom sinks (k + i + 1) (msgs.drop (i + 1)) := by
  conv_lhs => rw [← List.take_append_drop i msgs]
  rw [workerTraceFrom_append, List.length_take,
    Nat.min_eq_left (Nat.le_of_lt h),
    List.drop_eq_getElem_cons h, workerTraceFrom, List.append_assoc]
  rfl

/-- The retained-rotated-files queue never exceeds maxFiles after the cleanup
loop. -/
theorem cleanOld_length_le (maxFiles : Nat) (l : List String) (fs : FS) :
    (FileSink.cleanOld maxFiles l fs).1.length ≤ maxFiles := by
  induction l generalizing fs with
  | nil => simp [FileSink.cleanOld]
  | cons f rest ih =>
    by_cases hgt : rest.length + 1 > maxFiles
    · simpa [FileSink.cleanOld, hgt] using ih (fsRemove fs f)
    · simp only [FileSink.cleanOld, hgt, if_false]
      simpa using Nat.le_of_not_lt hgt

/-- The cleanup loop only deletes paths: a path absent before stays absent. -/
theorem cleanOld_fs_no_new_path (maxFiles : Nat) (l : List String) (fs : FS)
    (x : String) (hx : x ∉ fs) : x ∉ (FileSink.cleanOld maxFiles l fs).2 := by
  induction l generalizing fs with
  | nil => simpa [FileSink.cleanOld] using hx
  | cons f rest ih =>
    by_cases hgt : rest.length + 1 > maxFiles
    · simp only [FileSink.cleanOld, hgt, if_true]
      refine ih (fsRemove fs f) ?_
      intro hmem
      exact hx (List.mem_of_mem_filter hmem)
    · simpa [FileSink.cleanOld, hgt] using hx

/-- With retention 0 the cleanup loop empties the queue and deletes every
queued path from the filesystem. -/
theorem cleanOld_zero_deletes_all (l : List String) (fs : FS) :
    (FileSink.cleanOld 0 l fs).1 = [] ∧
    ∀ x ∈ l, x ∉ (FileSink.cleanOld 0 l fs).2 := by
  induction l generalizing fs with
  | nil => simp [FileSink.cleanOld]
  | cons f rest ih =>
    simp only [FileSink.cleanOld, Nat.succ_pos, gt_iff_lt, if_true]
    refine ⟨(ih (fsRemove fs f)).1, ?_⟩
    intro x hx
    rcases List.mem_cons.mp hx with hxf | hxr
    · subst hxf
      refine cleanOld_fs_no_new_path 0 rest (fsRemove fs x) x ?_
      intro hmem
      have := List.of_mem_filter hmem
      simp at this
    · exact (ih (fsRemove fs f)).2 x hxr

/-- The Size-policy name scan returns the name for the least index at or above
the starting counter whose path does not exist, and advances the counter past
it, provided such an index lies within the fuel. -/
theorem genSizeNameScan_least (base : String) (fs : FS) :
    ∀ (fuel i j : Nat), i ≤ j → j < i + fuel →
    FileSink.mkSizeRotateName base j ∉ fs →
    (∀ k, i ≤ k → k < j → FileSink.mkSizeRotateName base k ∈ fs) →
    FileSink.genSizeNameScan base fs fuel i =
      (FileSink.mkSizeRotateName base j, j + 1) := by
  intro fuel
  induction fuel with
  | zero => intro i j hij hfuel _ _; omega
  | succ fuel ih =>
    intro i j hij hfuel hfree hmin
    rcases Nat.eq_or_lt_of_le hij with heq | hlt
    · subst heq
      have hex : fsExists fs (FileSink.mkSizeRotateName base i) = false := by
        simp [fsExists, hfree]
      simp [FileSink.genSizeNameScan, hex]
    · have hmem : FileSink.mkSizeRotateName base i ∈ fs :=
        hmin i (Nat.le_refl i) hlt
      have hex : fsExists fs (FileSink.mkSizeRotateName base i) = true := by
        simp [fsExists, hmem]
      rw [FileSink.genSizeNameScan, hex]
      simp only [if_true]
      exact ih (i + 1) j hlt (by omega) hfree
        (fun k hk1 hk2 => hmin k (by omega) hk2)

/-- Stepping the backpressure sleep interval from the capped power min(2^j,
1024) yields the capped power for j + 1. -/
theorem bp_next_sleep (j : Nat) :
    (if min (2 ^ j) 1024 < 1024 then min (2 ^ j) 1024 * 2
     else min (2 ^ j) 1024) = min (2 ^ (j + 1)) 1024 := by
  rcases le_or_lt 1024 (2 ^ j) with h | h
  · have h2 : (1024 : Nat) ≤ 2 ^ (j + 1) := by
      have hp : 2 ^ (j + 1) = 2 ^ j * 2 := pow_succ 2 j
      omega
    rw [Nat.min_eq_right h, Nat.min_eq_right h2]
    simp
  · have hj : j < 10 := by
      by_contra hge
      have : (2 : Nat) ^ 10 ≤ 2 ^ j :=
        Nat.pow_le_pow_right (by norm_num) (Nat.le_of_not_lt hge)
      norm_num at this
      omega
    have h2 : 2 ^ (j + 1) ≤ 1024 := by
      calc 2 ^ (j + 1) ≤ 2 ^ 10 := Nat.pow_le_pow_right (by norm_num) (by omega)
      _ = 1024 := by norm_num
    rw [Nat.min_eq_left (Nat.le_of_lt h), Nat.min_eq_left h2, if_pos h,
      ← pow_succ]

/-- Every wait the BLOCK retry loop performs, started with the capped power
min(2^j, 1024), is a sleep of the capped doubling sequence; there are no
yield-only iterations. -/
theorem bpLoop_trace (capacity timeoutUs : Nat) (sizes elapsed : Nat → Nat) :
    ∀ (fuel k j i : Nat),
    i < (LogQueue.HandleBackPressureLoop capacity timeoutUs sizes elapsed
      fuel k (min (2 ^ j) 1024)).1.length →
    (LogQueue.HandleBackPressureLoop capacity timeoutUs sizes elapsed fuel k
      (min (2 ^ j) 1024)).1[i]?
      = some (BPWait.sleep (min (2 ^ (j + i)) 1024)) := by
  intro fuel
  induction fuel with
  | zero => intro k j i h; simp [LogQueue.HandleBackPressureLoop] at h
  | succ fuel ih =>
    intro k j i h
    by_cases h1 : sizes k < capacity
    · simp [LogQueue.HandleBackPressureLoop, h1] at h
    · by_cases h2 : timeoutUs < elapsed k
      · simp [LogQueue.HandleBackPressureLoop, h1, h2] at h
      · have heq : LogQueue.HandleBackPressureLoop capacity timeoutUs sizes
          elapsed (fuel + 1) k (min (2 ^ j) 1024) =
          (BPWait.sleep (min (2 ^ j) 1024) ::
            (LogQueue.HandleBackPressureLoop capacity timeoutUs sizes elapsed
              fuel (k + 1) (min (2 ^ (j + 1)) 1024)).1,
           (LogQueue.HandleBackPressureLoop capacity timeoutUs sizes elapsed
              fuel (k + 1) (min (2 ^ (j + 1)) 1024)).2) := by
          simp only [LogQueue.HandleBackPressureLoop, h1, h2, if_false]
          rw [bp_next_sleep j]
        rw [heq] at h ⊢
        cases i with
        | zero => simp
        | succ i =>
          simp only [List.length_cons, Nat.succ_lt_succ_iff] at h
          simp only [List.getElem?_cons_succ]
          rw [ih (k + 1) (j + 1) i h]
          rw [show j + 1 + i = j + (i + 1) from by omega]

/-- The BLOCK retry loop only reports success after observing the queue size
below capacity at some retry. -/
theorem bpLoop_true (capacity timeoutUs : Nat) (sizes elapsed : Nat → Nat) :
    ∀ (fuel k s : Nat),
    (LogQueue.HandleBackPressureLoop capacity timeoutUs sizes elapsed fuel k
      s).2 = some true → ∃ m, sizes m < capacity := by
  intro fuel
  induction fuel with
  | zero => intro k s h; simp [LogQueue.HandleBackPressureLoop] at h
  | succ fuel ih =>
    intro k s h
    by_cases h1 : sizes k < capacity
    · exact ⟨k, h1⟩
    · by_cases h2 : timeoutUs < elapsed k
      · simp [LogQueue.HandleBackPressureLoop, h1, h2] at h
      · simp only [LogQueue.HandleBackPressureLoop, h1, h2, if_false] at h
        exact ih (k + 1) _ h

/-- The BLOCK retry loop reports failure only when some retry saw the queue
still at capacity and the elapsed microseconds beyond the timeout. -/
theorem bpLoop_false (capacity timeoutUs : Nat) (sizes elapsed : Nat → Nat) :
    ∀ (fuel k s : Nat),
    (LogQueue.HandleBackPressureLoop capacity timeoutUs sizes elapsed fuel k
      s).2 = some false →
    ∃ m, capacity ≤ sizes m ∧ timeoutUs < elapsed m := by
  intro fuel
  induction fuel with
  | zero => intro k s h; simp [LogQueue.HandleBackPressureLoop] at h
  | succ fuel ih =>
    intro k s h
    by_cases h1 : sizes k < capacity
    · simp [LogQueue.HandleBackPressureLoop, h1, LogQueue.enqueueResult] at h
    · by_cases h2 : timeoutUs < elapsed k
      · exact ⟨k, Nat.le_of_not_lt h1, h2⟩
      · simp only [LogQueue.HandleBackPressureLoop, h1, h2, if_false] at h
        exact ih (k + 1) _ h

/-- Replacing one list element changes countP by the difference between the
new and the old element's predicate value (stated additively). -/
theorem countP_set_eq {α : Type} (p : α → Bool) :
    ∀ (l : List α) (i : Nat) (a : α) (h : i < l.length),
    (l.set i a).countP p + (if p (l.get ⟨i, h⟩) then 1 else 0)
      = l.countP p + (if p a then 1 else 0) := by
  intro l
  induction l with
  | nil => intro i a h; simp at h
  | cons x xs ih =>
    intro i a h
    cases i with
    | zero => simp [List.countP_cons]; omega
    | succ i =>
      have h2 : i < xs.length := by simpa using h
      simp only [List.set_cons_succ, List.countP_cons, List.get_cons_succ]
      have := ih i a h2
      omega

/-- The move assignment frees buffer b from the target exactly when the
target owns b. -/
theorem moveAssignFreed_eq_some (m : LogMessage) (b : Nat) :
    LogMessage.moveAssignFreed m = some b ↔ ownsBuffer b m = true := by
  cases hp : m.buffer_ptr <;> cases hq : m.buffer_pool <;>
    simp [LogMessage.moveAssignFreed, ownsBuffer, hp, hq]

/-- The destructor frees buffer b exactly when the message owns b. -/
theorem destructorFreed_eq_some (m : LogMessage) (b : Nat) :
    LogMessage.destructorFreed m = some b ↔ ownsBuffer b m = true := by
  cases hp : m.buffer_ptr <;> cases hq : m.buffer_pool <;>
    simp [LogMessage.destructorFreed, ownsBuffer, hp, hq]

/-- Count of b in the freed list after recording an optional free. -/
theorem count_freeOpt (freed : List Nat) (o : Option Nat) (b : Nat) :
    (freeOpt freed o).count b = freed.count b + (if o = some b then 1 else 0) := by
  cases o with
  | none => simp [freeOpt]
  | some x =>
    by_cases hx : x = b
    · subst hx
      simp [freeOpt, List.count_append]
    · have hb : b ∉ ([x] : List Nat) := by
        simp only [List.mem_singleton]
        exact fun hh => hx hh.symm
      simp [freeOpt, List.count_append, List.count_eq_zero.mpr hb, hx]

/-- A move step never changes the total of frees of b plus live owners of b. -/
theorem stepMove_sum (b : Nat) (st : OwnershipState) (op : MoveOp) :
    (stepMove st op).freed.count b +
      (stepMove st op).msgs.countP (ownsBuffer b)
      = st.freed.count b + st.msgs.countP (ownsBuffer b) := by
  cases op with
  | construct i =>
    by_cases h : i < st.msgs.length
    · simp only [stepMove, dif_pos h, LogMessage.moveConstruct,
        List.countP_append]
      have hset := countP_set_eq (ownsBuffer b) st.msgs i
        (LogMessage.clearOwnership (st.msgs.get ⟨i, h⟩)) h
      have hclear : ownsBuffer b
          (LogMessage.clearOwnership (st.msgs.get ⟨i, h⟩)) = false := by
        simp [ownsBuffer, LogMessage.clearOwnership]
      rw [hclear] at hset
      simp only [Bool.false_eq_true, if_false, Nat.add_zero] at hset
      have hsingle : ([st.msgs.get ⟨i, h⟩] : List LogMessage).countP
          (ownsBuffer b)
          = if ownsBuffer b (st.msgs.get ⟨i, h⟩) = true then 1 else 0 := by
        simp [List.countP_cons]
      rw [hsingle]
      omega
    · simp only [stepMove, dif_neg h]
  | assign j i =>
    by_cases hji : j = i
    · simp only [stepMove, if_pos hji]
    · by_cases h : j < st.msgs.length ∧ i < st.msgs.length
      · simp only [stepMove, if_neg hji, dif_pos h, LogMessage.moveAssign]
        have hlen : i < (st.msgs.set j (st.msgs.get ⟨i, h.2⟩)).length := by
          simpa using h.2
        have hget : (st.msgs.set j (st.msgs.get ⟨i, h.2⟩)).get ⟨i, hlen⟩
            = st.msgs.get ⟨i, h.2⟩ := by
          simp only [List.get_eq_getElem]
          rw [List.getElem_set_ne (fun hh => hji hh)]
        have hset1 := countP_set_eq (ownsBuffer b)
          (st.msgs.set j (st.msgs.get ⟨i, h.2⟩)) i
          (LogMessage.clearOwnership (st.msgs.get ⟨i, h.2⟩)) hlen
        rw [hget] at hset1
        have hclear : ownsBuffer b
            (LogMessage.clearOwnership (st.msgs.get ⟨i, h.2⟩)) = false := by
          simp [ownsBuffer, LogMessage.clearOwnership]
        rw [hclear] at hset1
        simp only [Bool.false_eq_true, if_false, Nat.add_zero] at hset1
        have hset2 := countP_set_eq (ownsBuffer b) st.msgs j
          (st.msgs.get ⟨i, h.2⟩) h.1
        have hfree := count_freeOpt st.freed
          (LogMessage.moveAssignFreed (st.msgs.get ⟨j, h.1⟩)) b
        have hif : (if LogMessage.moveAssignFreed (st.msgs.get ⟨j, h.1⟩)
            = some b then 1 else 0)
            = if ownsBuffer b (st.msgs.get ⟨j, h.1⟩) = true then 1 else 0 := by
          by_cases hm : ownsBuffer b (st.msgs.get ⟨j, h.1⟩) = true
          · rw [if_pos ((moveAssignFreed_eq_some _ b).mpr hm), if_pos hm]
          · rw [if_neg (fun he => hm ((moveAssignFreed_eq_some _ b).mp he)),
              if_neg hm]
        rw [hif] at hfree
        rw [hfree]
        omega
      · simp only [stepMove, if_neg hji, dif_neg h]

/-- Destroying a message list in order records one free of b per live owner
of b, after the frees already recorded. -/
theorem destroy_fold_count (b : Nat) :
    ∀ (l : List LogMessage) (acc : List Nat),
    (l.foldl (fun a m => freeOpt a (LogMessage.destructorFreed m)) acc).count b
      = acc.count b + l.countP (ownsBuffer b) := by
  intro l
  induction l with
  | nil => intro acc; simp
  | cons m rest ih =>
    intro acc
    simp only [List.foldl_cons, List.countP_cons]
    rw [ih, count_freeOpt]
    have hif : (if LogMessage.destructorFreed m = some b then 1 else 0)
        = if ownsBuffer b m then 1 else 0 := by
      by_cases hm : ownsBuffer b m = true
      · simp [hm, (destructorFreed_eq_some m b).mpr hm]
      · have hno : ¬ LogMessage.destructorFreed m = some b :=
          fun he => hm ((destructorFreed_eq_some m b).mp he)
        simp [hno, Bool.eq_false_iff.mpr hm]
    rw [hif]
    omega

/-- A whole sequence of move operations preserves the total of frees of b
plus live owners of b. -/
theorem runMoves_sum (b : Nat) (ops : List MoveOp) :
    ∀ (st : OwnershipState),
    (runMoves st ops).freed.count b +
      (runMoves st ops).msgs.countP (ownsBuffer b)
      = st.freed.count b + st.msgs.countP (ownsBuffer b) := by
  induction ops with
  | nil => intro st; rfl
  | cons op rest ih =>
    intro st
    have hstep : runMoves st (op :: rest) = runMoves (stepMove st op) rest := rfl
    rw [hstep, ih (stepMove st op), stepMove_sum]

/-! Claim theorems. -/

/-- C1: the spec claims every LogSubmit leaves the attached LogBuffer with
length ≤ capacity and all written bytes (including the terminating nul at
data[length]) inside data[0..SIZE-1], also for oversized payloads. The code
stores format_to_n's UNTRUNCATED size into buf->length: at untruncated size
5000 the stored length is 5000 > SIZE = 4096 and the nul byte is stored at
index 5000, outside the 4096-byte array. -/
theorem logSubmit_oversize_sets_length_beyond_capacity :
    logSubmitBufferEffect 5000 =
      { payloadBytesWritten := 4095, length := 5000, nulIndex := 5000 } ∧
    LogBuffer.SIZE < (logSubmitBufferEffect 5000).length ∧
    LogBuffer.SIZE ≤ (logSubmitBufferEffect 5000).nulIndex := by
  refine ⟨?_, ?_, ?_⟩ <;> decide

/-- C2: LogQueue::Push enqueues unconditionally when capacity = 0 or force is
true, enqueues when the approximate size is below capacity, and otherwise
invokes backpressure; with capacity 0 a push is never rejected. -/
theorem Push_dispatch_follows_capacity_and_force
    (capacity sizeApprox : Nat) (force bp : Bool) :
    ((capacity = 0 ∨ force = true) →
      LogQueue.Push capacity sizeApprox force bp = true) ∧
    (sizeApprox < capacity →
      LogQueue.Push capacity sizeApprox force bp = true) ∧
    (0 < capacity → force = false → capacity ≤ sizeApprox →
      LogQueue.Push capacity sizeApprox force bp = bp ∧
      LogQueue.pushInvokesBackpressure capacity sizeApprox force = true) ∧
    (capacity = 0 → LogQueue.Push capacity sizeApprox force bp = true) := by
  unfold LogQueue.Push LogQueue.pushInvokesBackpressure LogQueue.enqueueResult
  split <;> rename_i h
  · obtain ⟨h1, h2, h3⟩ := h
    subst h3
    refine ⟨?_, ?_, ?_, ?_⟩
    · rintro (h0 | h0)
      · omega
      · exact absurd h0 (by simp)
    · intro h0; omega
    · intro _ _ _
      exact ⟨rfl, by simp [h1, h2]⟩
    · intro h0; omega
  · refine ⟨fun _ => rfl, fun _ => rfl, ?_, fun _ => rfl⟩
    intro h1 h2 h3
    exact absurd ⟨h1, h3, h2⟩ h

/-- Witness for C2 at capacity 0. -/
theorem Push_dispatch_follows_capacity_and_force_witness :
    LogQueue.Push 0 5 false false = true :=
  (Push_dispatch_follows_capacity_and_force 0 5 false false).2.2.2 rfl

/-- C4: a successful commit leaves the drop counter unchanged, a rejected
commit increments it by exactly one, and over any sequence of submissions the
counter is monotonically non-decreasing. -/
theorem logSubmit_drop_count_accounting
    (drop : Nat) (ok : Bool) (results : List Bool) :
    (ok = true → logSubmitDropStep drop ok = drop) ∧
    (ok = false → logSubmitDropStep drop ok = drop + 1) ∧
    drop ≤ runSubmits drop results := by
  refine ⟨?_, ?_, le_runSubmits results drop⟩ <;>
    intro h <;> subst h <;> simp [logSubmitDropStep, AddDropCount]

/-- Witness for C4 at a concrete rejected submission. -/
theorem logSubmit_drop_count_accounting_witness :
    logSubmitDropStep 7 false = 8 :=
  (logSubmit_drop_count_accounting 7 false []).2.1 rfl

/-- C3: when the worker dequeues a FLUSH (flush-barrier) message at position
i, its trace is: all events of the earlier messages (each handed to every
sink), then a Flush of every attached sink in order, and only then the
completion of the barrier's waiter; moreover the FLUSH-constructor message
carries no buffer. -/
theorem flush_barrier_flushes_all_sinks_before_completion
    (sinks : List Nat) (msgs : List LogMessage) (i p : Nat)
    (h : i < msgs.length)
    (hlvl : (msgs.get ⟨i, h⟩).level = LogLevel.FLUSH)
    (hprom : (msgs.get ⟨i, h⟩).sync_promise = some p) :
    workerTrace sinks msgs =
      workerTrace sinks (msgs.take i) ++
      (sinks.map WorkerEvent.flushSink ++ [WorkerEvent.completeWaiter p]) ++
      workerTraceFrom sinks (i + 1) (msgs.drop (i + 1)) ∧
    (LogMessage.flushMessage p).buffer_ptr = none ∧
    (LogMessage.flushMessage p).level = LogLevel.FLUSH ∧
    (LogMessage.flushMessage p).sync_promise = some p := by
  refine ⟨?_, rfl, rfl, rfl⟩
  unfold workerTrace
  rw [workerTraceFrom_decompose sinks msgs 0 i h]
  simp only [List.get_eq_getElem] at hlvl hprom
  simp [processMessage, hlvl, hprom]

/-- Witness for C3: a batch holding just one flush barrier with waiter 7,
dispatched to sinks 0 and 1. -/
theorem flush_barrier_flushes_all_sinks_before_completion_witness :
    workerTrace [0, 1] [LogMessage.flushMessage 7] =
      workerTrace [0, 1] (([LogMessage.flushMessage 7]).take 0) ++
      ([0, 1].map WorkerEvent.flushSink ++ [WorkerEvent.completeWaiter 7]) ++
      workerTraceFrom [0, 1] 1 (([LogMessage.flushMessage 7]).drop 1) ∧
    (LogMessage.flushMessage 7).buffer_ptr = none ∧
    (LogMessage.flushMessage 7).level = LogLevel.FLUSH ∧
    (LogMessage.flushMessage 7).sync_promise = some 7 :=
  flush_barrier_flushes_all_sinks_before_completion [0, 1]
    [LogMessage.flushMessage 7] 0 7 (by decide) rfl rfl

/-- C5: with an open file under the Size policy, FileSink::Log runs the
rotation check before the write: a rotation happens exactly when the tracked
size has reached the threshold at the check; on rotation the tracked size is
reset to 0 before the new record's bytes are added; otherwise the record's
bytes are added to the old size; and ApplyConfig sets the threshold to
rotate_size_mb * 1024 * 1024 bytes. -/
theorem size_rotation_checked_before_each_write
    (s : FileSinkState) (fs : FS) (today : String) (reopenOk : Bool)
    (now ntp : Int) (n : Nat) (cfg : LogConfigRotateSlice)
    (hfile : s.hasFile = true) (hpol : s.rotate_policy = RotatePolicy.SIZE) :
    ((FileSink.Log s fs today reopenOk now ntp n).2.2 = true ↔
      s.rotate_size_bytes ≤ s.current_file_size) ∧
    ((FileSink.Log s fs today reopenOk now ntp n).2.2 = true →
      (FileSink.Log s fs today reopenOk now ntp n).1.current_file_size = n) ∧
    ((FileSink.Log s fs today reopenOk now ntp n).2.2 = false →
      (FileSink.Log s fs today reopenOk now ntp n).1.current_file_size
        = s.current_file_size + n) ∧
    (FileSink.ApplyConfig s cfg).rotate_size_bytes
      = cfg.rotate_size_mb * 1024 * 1024 := by
  refine ⟨?_, ?_, ?_, rfl⟩ <;>
  · simp only [FileSink.Log, hfile, Bool.true_eq_false, if_false,
      FileSink.CheckRotate, hpol, FileSink.CheckSizeRotate]
    by_cases hlt : s.current_file_size < s.rotate_size_bytes <;>
      simp [hlt] <;> omega

/-- Witness for C5: size 16 has reached threshold 16, so the write of 5 bytes
is preceded by a rotation and the tracked size ends at 5. -/
theorem size_rotation_checked_before_each_write_witness :
    (FileSink.Log
      { hasFile := true, current_file_size := 16, base_filepath := "log",
        rotate_policy := RotatePolicy.SIZE, rotate_size_bytes := 16,
        max_rotate_files := 0, rotate_files := [], size_rotate_counter := 1,
        next_rotation_tp := 0 } ["log"] "" true
      0 0 5).1.current_file_size = 5 :=
  (size_rotation_checked_before_each_write
    { hasFile := true, current_file_size := 16, base_filepath := "log",
      rotate_policy := RotatePolicy.SIZE, rotate_size_bytes := 16,
      max_rotate_files := 0, rotate_files := [], size_rotate_counter := 1,
      next_rotation_tp := 0 } ["log"] "" true 0 0 5
    ⟨RotatePolicy.SIZE, 1, 0⟩ rfl rfl).2.1 (by decide)

/-- C7: after CollectRotateFilesAndCleanOld the retained queue holds at most
max_rotate_files entries (the rotated name is appended at the tail and heads
are deleted and popped while the queue is longer); with max_rotate_files = 0
the queue ends empty and the just-rotated file is deleted from disk. -/
theorem rotate_retention_bound (files : List String) (rotated : String)
    (maxFiles : Nat) (fs : FS) :
    (FileSink.CollectRotateFilesAndCleanOld files rotated maxFiles fs).1.length
      ≤ maxFiles ∧
    (maxFiles = 0 →
      (FileSink.CollectRotateFilesAndCleanOld files rotated maxFiles fs).1 = []
      ∧ rotated ∉
        (FileSink.CollectRotateFilesAndCleanOld files rotated maxFiles fs).2) := by
  refine ⟨cleanOld_length_le maxFiles (files ++ [rotated]) fs, ?_⟩
  intro h0
  subst h0
  exact ⟨(cleanOld_zero_deletes_all (files ++ [rotated]) fs).1,
    (cleanOld_zero_deletes_all (files ++ [rotated]) fs).2 rotated
      (by simp)⟩

/-- Witness for C7 at retention 0: the rotated file "log_1" is deleted right
away and the queue stays empty. -/
theorem rotate_retention_bound_witness :
    (FileSink.CollectRotateFilesAndCleanOld [] "log_1" 0 ["log_1"]).1 = [] ∧
    "log_1" ∉ (FileSink.CollectRotateFilesAndCleanOld [] "log_1" 0
      ["log_1"]).2 :=
  (rotate_retention_bound [] "log_1" 0 ["log_1"]).2 rfl

/-- C6 counterexample: starting fresh on base path "log" with Size policy and
max_rotate_files = 0, the first rotation names "log_1" and deletes it; at the
second rotation "log_1" no longer exists, so the smallest free positive index
is 1, yet GenerateRotatedName produces "log_2" because the static counter
never resets — the claim that n is the smallest free positive integer is
false. -/
theorem size_rotation_name_not_smallest_cx :
    (FileSink.GenerateRotatedName
      (FileSink.RotateFile c6State0 ["log"] "" true).1
      (FileSink.RotateFile c6State0 ["log"] "" true).2 "").1 = "log_2" ∧
    FileSink.mkSizeRotateName "log" 1 ∉
      (FileSink.RotateFile c6State0 ["log"] "" true).2 ∧
    ("log_2" : String) ≠ FileSink.mkSizeRotateName "log" 1 := by
  refine ⟨by decide, by decide, by decide⟩

/-- C6 amended: under the Size policy the rotated name is base_n where n is
the smallest integer AT OR ABOVE the persistent per-process counter (static
int i, never reset) whose path does not exist at rotation time, and the
counter advances past n; n need not be the smallest free positive integer. -/
theorem size_rotation_name_least_free_from_counter
    (s : FileSinkState) (fs : FS) (today : String) (j : Nat)
    (hpol : s.rotate_policy = RotatePolicy.SIZE)
    (hij : s.size_rotate_counter ≤ j)
    (hfuel : j < s.size_rotate_counter + fs.length + 1)
    (hfree : FileSink.mkSizeRotateName s.base_filepath j ∉ fs)
    (hmin : ∀ k, s.size_rotate_counter ≤ k → k < j →
      FileSink.mkSizeRotateName s.base_filepath k ∈ fs) :
    FileSink.GenerateRotatedName s fs today =
      (FileSink.mkSizeRotateName s.base_filepath j, j + 1) := by
  unfold FileSink.GenerateRotatedName
  rw [hpol]
  exact genSizeNameScan_least s.base_filepath fs (fs.length + 1)
    s.size_rotate_counter j hij hfuel hfree hmin

/-- Witness for C6 amended: counter at 3 with "x_3" occupied yields "x_4". -/
theorem size_rotation_name_least_free_from_counter_witness :
    FileSink.GenerateRotatedName
      { hasFile := true, current_file_size := 0, base_filepath := "x",
        rotate_policy := RotatePolicy.SIZE, rotate_size_bytes := 16,
        max_rotate_files := 0, rotate_files := [], size_rotate_counter := 3,
        next_rotation_tp := 0 } ["x_3"] "" =
      (FileSink.mkSizeRotateName "x" 4, 5) :=
  size_rotation_name_least_free_from_counter
    { hasFile := true, current_file_size := 0, base_filepath := "x",
      rotate_policy := RotatePolicy.SIZE, rotate_size_bytes := 16,
      max_rotate_files := 0, rotate_files := [], size_rotate_counter := 3,
      next_rotation_tp := 0 } ["x_3"] "" 4 rfl (by decide) (by decide)
    (by decide) (by decide)

/-- C8 counterexample: on a schedule where the queue stays full for three
iterations and then drains, the code's backpressure performs sleeps of 1, 2
and 4 microseconds — not the spin-then-sleep waits (three CPU yields) that the
claim describes; the two wait traces differ. -/
theorem backpressure_not_spin_then_sleep_cx :
    LogQueue.HandleBackPressure QueueFullPolicy.BLOCK 8192 1000000 c8sizes
      c8elapsed 10 =
      ([BPWait.sleep 1, BPWait.sleep 2, BPWait.sleep 4], some true) ∧
    specHybridBackPressure 8192 1000000 c8sizes c8elapsed 10 =
      ([BPWait.yield, BPWait.yield, BPWait.yield], some true) ∧
    ([BPWait.sleep 1, BPWait.sleep 2, BPWait.sleep 4] : List BPWait) ≠
      [BPWait.yield, BPWait.yield, BPWait.yield] := by
  refine ⟨by decide, by decide, by decide⟩

/-- C8 amended: under Drop the backpressure fails immediately; under Block it
is a sleep-retry loop — every wait is a sleep of 2^i microseconds capped at
1024 (doubling backoff, no spin/yield phase) — that returns success only
after a retry observed the size below capacity (so the retried enqueue runs),
and returns failure only when a retry saw the queue still at capacity with
the elapsed microseconds beyond block_timeout_us. -/
theorem backpressure_exponential_backoff_behaviour
    (capacity timeoutUs fuel : Nat) (sizes elapsed : Nat → Nat) :
    LogQueue.HandleBackPressure QueueFullPolicy.DROP capacity timeoutUs sizes
      elapsed fuel = ([], some false) ∧
    (∀ i, i < (LogQueue.HandleBackPressure QueueFullPolicy.BLOCK capacity
        timeoutUs sizes elapsed fuel).1.length →
      (LogQueue.HandleBackPressure QueueFullPolicy.BLOCK capacity timeoutUs
        sizes elapsed fuel).1[i]?
        = some (BPWait.sleep (min (2 ^ i) 1024))) ∧
    ((LogQueue.HandleBackPressure QueueFullPolicy.BLOCK capacity timeoutUs
        sizes elapsed fuel).2 = some true → ∃ m, sizes m < capacity) ∧
    ((LogQueue.HandleBackPressure QueueFullPolicy.BLOCK capacity timeoutUs
        sizes elapsed fuel).2 = some false →
      ∃ m, capacity ≤ sizes m ∧ timeoutUs < elapsed m) := by
  have hone : (1 : Nat) = min (2 ^ 0) 1024 := by norm_num
  refine ⟨rfl, ?_, ?_, ?_⟩
  · intro i hi
    unfold LogQueue.HandleBackPressure at hi ⊢
    rw [hone] at hi ⊢
    rw [bpLoop_trace capacity timeoutUs sizes elapsed fuel 0 0 i hi]
    rw [Nat.zero_add]
  · intro hres
    unfold LogQueue.HandleBackPressure at hres
    exact bpLoop_true capacity timeoutUs sizes elapsed fuel 0 1 hres
  · intro hres
    unfold LogQueue.HandleBackPressure at hres
    exact bpLoop_false capacity timeoutUs sizes elapsed fuel 0 1 hres

/-- Witness for C8 amended on the concrete three-full-iterations schedule:
the second wait is a 2 microsecond sleep and success implies the size dropped
below capacity at some retry. -/
theorem backpressure_exponential_backoff_behaviour_witness :
    (LogQueue.HandleBackPressure QueueFullPolicy.BLOCK 8192 1000000 c8sizes
      c8elapsed 10).1[1]? = some (BPWait.sleep (min (2 ^ 1) 1024)) ∧
    ∃ m, c8sizes m < 8192 :=
  ⟨(backpressure_exponential_backoff_behaviour 8192 1000000 10 c8sizes
      c8elapsed).2.1 1 (by decide),
   (backpressure_exponential_backoff_behaviour 8192 1000000 10 c8sizes
      c8elapsed).2.2.1 (by decide)⟩

/-- C10: move construction and move assignment transfer buffer_ptr,
buffer_pool and sync_promise and null all three in the moved-from message; the
destructor frees only when both buffer_ptr and buffer_pool are non-null, so a
moved-from message frees nothing; and for any sequence of moves over the live
messages starting from one owner, followed by destruction of all involved
messages, the owned buffer is returned to the pool exactly once. -/
theorem logMessage_buffer_freed_exactly_once
    (m0 dst : LogMessage) (b : Nat) (ops : List MoveOp)
    (hptr : m0.buffer_ptr = some b) (hpool : m0.buffer_pool.isSome = true) :
    (LogMessage.moveConstruct m0).1 = m0 ∧
    (LogMessage.moveConstruct m0).2.buffer_ptr = none ∧
    (LogMessage.moveConstruct m0).2.buffer_pool = none ∧
    (LogMessage.moveConstruct m0).2.sync_promise = none ∧
    (LogMessage.moveAssign dst m0).1 = m0 ∧
    (LogMessage.moveAssign dst m0).2.1.buffer_ptr = none ∧
    (LogMessage.moveAssign dst m0).2.1.buffer_pool = none ∧
    (LogMessage.moveAssign dst m0).2.1.sync_promise = none ∧
    (∀ m : LogMessage, m.buffer_ptr = none ∨ m.buffer_pool = none →
      LogMessage.destructorFreed m = none) ∧
    LogMessage.destructorFreed (LogMessage.moveConstruct m0).2 = none ∧
    (destroyAll (runMoves { msgs := [m0], freed := [] } ops)).count b = 1 := by
  refine ⟨rfl, rfl, rfl, rfl, rfl, rfl, rfl, rfl, ?_, ?_, ?_⟩
  · intro m hm
    rcases hm with hm | hm <;> simp [LogMessage.destructorFreed, hm]
  · simp [LogMessage.destructorFreed, LogMessage.moveConstruct,
      LogMessage.clearOwnership]
  · have hd : destroyAll (runMoves { msgs := [m0], freed := [] } ops)
        = (runMoves { msgs := [m0], freed := [] } ops).msgs.foldl
          (fun a m => freeOpt a (LogMessage.destructorFreed m))
          (runMoves { msgs := [m0], freed := [] } ops).freed := rfl
    rw [hd, destroy_fold_count b, runMoves_sum b ops]
    have howns : ownsBuffer b m0 = true := by
      simp [ownsBuffer, hptr, hpool]
    simp [List.countP_cons, howns]

/-- Witness for C10: a concrete message owning buffer 5, moved twice (one
construction, one assignment back), then all messages destroyed: buffer 5 is
freed exactly once. -/
theorem logMessage_buffer_freed_exactly_once_witness :
    (destroyAll (runMoves { msgs := [c10msg], freed := [] }
      [MoveOp.construct 0, MoveOp.assign 0 1])).count 5 = 1 :=
  (logMessage_buffer_freed_exactly_once c10msg (LogMessage.flushMessage 3) 5
    [MoveOp.construct 0, MoveOp.assign 0 1] rfl rfl).2.2.2.2.2.2.2.2.2.2

/-- C9 counterexample: with sink.file.log_path = "" in the loaded
configuration, LoadFromFile keeps the previous (default) path "logfile.log",
which is non-empty, and InitFromConfig still attaches a FileSink — the claim
that the empty string disables the file sink is false on the code. -/
theorem empty_log_path_does_not_disable_file_sink_cx :
    loadLogPath (some "") kDefaultLogPath = kDefaultLogPath ∧
    kDefaultLogPath ≠ "" ∧
    initFromConfigAttachesFileSink (loadLogPath (some "") kDefaultLogPath)
      = true := by
  refine ⟨rfl, ?_, rfl⟩
  decide

/-- C9 amended: an empty sink.file.log_path value is ignored by LoadFromFile
(the previous path is kept, so starting from the default the path stays
"logfile.log" and a FileSink is still attached); a non-empty value replaces
the path; an absent value keeps it. -/
theorem empty_log_path_ignored_keeps_previous_path
    (current loaded : String) :
    loadLogPath (some "") current = current ∧
    loadLogPath none current = current ∧
    (loaded ≠ "" → loadLogPath (some loaded) current = loaded) ∧
    initFromConfigAttachesFileSink kDefaultLogPath = true := by
  refine ⟨rfl, rfl, ?_, by decide⟩
  intro h
  simp [loadLogPath, String.isEmpty_iff, h]

/-- Witness for C9 amended at concrete strings. -/
theorem empty_log_path_ignored_keeps_previous_path_witness :
    loadLogPath (some "other.log") "logfile.log" = "other.log" :=
  (empty_log_path_ignored_keeps_previous_path "logfile.log"
    "other.log").2.2.1 (by decide)

end AsyncLog
